import Mathlib

/-!
Verification of the Circle9 transfer-orchestration core against its
natural-language specification.

The frontend TypeScript sources (under `src/`) are embedded faithfully:
`Service/ssh_state.ts` (session registry), the `TransferQueueManager`
(progress fan-out / active-transfer bookkeeping), and the
`DragDropHandler` (gesture handling).  The scheduling/byte-counter core
runs in the Rust backend (`src-tauri`), which is not part of the
delivered sources; where a claim is decided by that backend, the missing
operation is modelled from the specification and marked as such in its
doc comment.
-/

namespace Circle9

/-! ## A JavaScript-Map-like association structure

`Map<string, V>` as used by the TypeScript managers: insertion order is
kept, `set` overwrites in place when the key is present and appends
otherwise, `delete` removes the key, `get` returns the value or
`undefined` (here `Option`). -/

/-- A JavaScript `Map<string, α>` value: entry list in insertion order. -/
abbrev JMap (α : Type) : Type := List (String × α)

namespace JMap

/-- JavaScript Map.get. -/
def jget (m : JMap α) (k : String) : Option α :=
  (m.find? (fun e => e.1 == k)).map (·.2)

/-- JavaScript Map.has. -/
def jhas (m : JMap α) (k : String) : Bool :=
  m.any (fun e => e.1 == k)

/-- JavaScript Map.set: overwrite in place when the key is present, append otherwise. -/
def jset (m : JMap α) (k : String) (v : α) : JMap α :=
  if m.any (fun e => e.1 == k) then
    m.map (fun e => if e.1 == k then (k, v) else e)
  else
    m ++ [(k, v)]

/-- JavaScript Map.delete. -/
def jdel (m : JMap α) (k : String) : JMap α :=
  m.filter (fun e => !(e.1 == k))

/-- JavaScript Map.size. -/
def jsize (m : JMap α) : Nat := m.length

/-- Map a function over all stored values, keys unchanged. -/
def jmapVal (f : α → β) (m : JMap α) : JMap β :=
  m.map (fun e => (e.1, f e.2))

theorem jget_jset_self (m : JMap α) (k : String) (v : α) :
    jget (jset m k v) k = some v := by
  unfold jget jset
  split
  · rename_i hany
    induction m with
    | nil => simp_all [List.any]
    | cons e rest ih =>
      by_cases he : e.1 == k
      · simp [List.find?, he]
      · simp only [List.map_cons, he, if_neg, Bool.false_eq_true, not_false_iff]
        rw [List.find?]
        simp only [he, Bool.false_eq_true, not_false_iff, if_neg]
        simp only [List.any_cons, he, Bool.false_or] at hany
        exact ih hany
  · induction m with
    | nil => simp [List.find?]
    | cons e rest ih =>
      rename_i hany
      simp only [List.any_cons, Bool.or_eq_true, not_or] at hany
      rw [List.cons_append, List.find?]
      simp only [Bool.not_eq_true] at hany
      rw [hany.1]
      exact ih (by simp [hany.2])

theorem jhas_jset_self (m : JMap α) (k : String) (v : α) :
    jhas (jset m k v) k = true := by
  unfold jhas jset
  split
  · rename_i hany
    rw [List.any_map]
    refine List.any_eq_true.mpr ?_
    obtain ⟨e, he, hk⟩ := List.any_eq_true.mp hany
    exact ⟨e, he, by simp [Function.comp, hk]⟩
  · simp [List.any_append]

theorem jsize_jset_of_jhas (m : JMap α) (k : String) (v : α)
    (h : jhas m k = true) : jsize (jset m k v) = jsize m := by
  unfold jhas at h
  unfold jsize jset
  rw [if_pos h]
  exact List.length_map _ _

theorem jget_jdel_self (m : JMap α) (k : String) :
    jget (jdel m k) k = none := by
  unfold jget jdel
  induction m with
  | nil => simp [List.find?]
  | cons e rest ih =>
    by_cases he : e.1 == k
    · simp only [List.filter, he]
      exact ih
    · simp only [List.filter, he, Bool.not_false]
      rw [List.find?]
      simp only [he, Bool.false_eq_true, not_false_iff, if_neg]
      exact ih

theorem jhas_jdel_ne (m : JMap α) (k k' : String) (h : k ≠ k') :
    jhas (jdel m k') k = jhas m k := by
  unfold jhas jdel
  induction m with
  | nil => simp
  | cons e rest ih =>
    by_cases he : e.1 == k'
    · have : ¬(e.1 == k) = true := by
        intro hk
        exact h ((beq_iff_eq.mp hk).symm.trans (beq_iff_eq.mp he))
      simp only [List.filter, he, Bool.not_true, List.any_cons]
      rw [ih]
      simp [this]
    · simp only [List.filter, he, Bool.not_false, List.any_cons]
      rw [ih]

theorem jhas_of_jget_some (m : JMap α) (k : String) (v : α)
    (h : jget m k = some v) : jhas m k = true := by
  unfold jget at h
  unfold jhas
  obtain ⟨e, hfind⟩ : ∃ e, m.find? (fun e => e.1 == k) = some e := by
    cases hf : m.find? (fun e => e.1 == k) with
    | none => rw [hf] at h; simp at h
    | some e => exact ⟨e, rfl⟩
  have hmem := List.mem_of_find?_eq_some hfind
  have hkey := List.find?_some hfind
  exact List.any_eq_true.mpr ⟨e, hmem, hkey⟩

theorem jget_jmapVal (f : α → β) (m : JMap α) (k : String) :
    jget (jmapVal f m) k = (jget m k).map f := by
  unfold jget jmapVal
  induction m with
  | nil => simp [List.find?]
  | cons e rest ih =>
    by_cases he : e.1 == k
    · simp [List.find?, he]
    · simp only [List.map_cons]
      rw [List.find?, List.find?]
      simp only [he, Bool.false_eq_true, not_false_iff, if_neg]
      exact ih

end JMap

open JMap

/-! ## Session registry (`src/Service/ssh_state.ts`, class `SSHStateManager`) -/

/-- One registered SSH session, mirroring the `SSHConnection` interface:
`id`, `host`, `port`, `username`, `connected`, `lastActivity` (epoch ms). -/
structure SSHConnection where
  id : String
  host : String
  port : Nat
  username : String
  connected : Bool
  lastActivity : Nat
  deriving Repr, DecidableEq

/-- The mutable fields of `SSHStateManager`: the `connections` map and the
`currentConnection` pointer (`string | null`). -/
structure SSHState where
  connections : JMap SSHConnection
  currentConnection : Option String
  deriving Repr, DecidableEq

/-- The `SSHStateManager.connect` success path: the backend command
`connect_ssh` returned `connectionId`; the manager builds the record,
stores it under that id and makes it current.  `now` stands for
`new Date()`. -/
def connectApply (st : SSHState) (connectionId host : String) (port : Nat)
    (username : String) (now : Nat) : SSHState × String :=
  let conn : SSHConnection :=
    { id := connectionId, host := host, port := port, username := username,
      connected := true, lastActivity := now }
  ({ connections := jset st.connections connectionId conn,
     currentConnection := some connectionId }, connectionId)

/-- The state mutation shared by `SSHStateManager.disconnect` (success path)
and the `ssh-disconnected` event listener: delete the record and clear the
current pointer when it referenced the deleted id. -/
def removeConnection (st : SSHState) (connectionId : String) : SSHState :=
  { connections := jdel st.connections connectionId,
    currentConnection :=
      if st.currentConnection = some connectionId then none
      else st.currentConnection }

/-- Modelled from the spec: the backend `disconnect(connectionId) → ack`
operation (§6) — the backend acknowledges a disconnect request and reports
no error alternative, so the model always acknowledges. -/
def backendDisconnectSSH (_connectionId : String) : Except String Unit :=
  Except.ok ()

/-- Method `SSHStateManager.disconnect`: awaits the backend `disconnect_ssh`
command, then deletes the record and clears the current pointer; the catch
branch logs and rethrows the backend error. -/
def disconnectRun (st : SSHState) (connectionId : String) :
    Except String SSHState :=
  match backendDisconnectSSH connectionId with
  | Except.ok _ => Except.ok (removeConnection st connectionId)
  | Except.error e => Except.error e

/-- The `ssh-disconnected` event listener registered in
`initializeEventListeners`. -/
def sshDisconnectedEvent (st : SSHState) (connectionId : String) : SSHState :=
  removeConnection st connectionId

/-- Method `SSHStateManager.setCurrentConnection`: only repoints when the id is
registered. -/
def setCurrentConnection (st : SSHState) (connectionId : String) : SSHState :=
  if jhas st.connections connectionId then
    { st with currentConnection := some connectionId }
  else st

/-- Method `SSHStateManager.getCurrentConnection`:
`this.connections.get(this.currentConnection) || null`. -/
def getCurrentConnection (st : SSHState) : Option SSHConnection :=
  match st.currentConnection with
  | none => none
  | some id => jget st.connections id

/-- A connection id is live when a record with that id is registered and
its `connected` flag is set. -/
def isLive (st : SSHState) (connectionId : String) : Bool :=
  match jget st.connections connectionId with
  | some c => c.connected
  | none => false

/-- Modelled from the spec: the backend `connect_ssh` command's
duplicate-connection reuse (§4.1 — "if a prior connection with the same
host+username exists and is live, returns the existing identifier instead
of creating a duplicate").  The lookup scans the registry for the first
live record with the given host and username. -/
def findLiveKey (m : JMap SSHConnection) (host username : String) :
    Option String :=
  (m.find? (fun e =>
    e.2.host == host && e.2.username == username && e.2.connected)).map (·.1)

/-- Full `connect` call: the spec-modelled backend either reuses the live
session with the same host+username (returning its id) or issues the fresh
id `freshId`; in both cases the frontend `SSHStateManager.connect` success
path (`connectApply`) stores the record. -/
def connectRun (st : SSHState) (host : String) (port : Nat)
    (username freshId : String) (now : Nat) : SSHState × String :=
  match findLiveKey st.connections host username with
  | some existingId => connectApply st existingId host port username now
  | none => connectApply st freshId host port username now

theorem findLiveKey_jhas (m : JMap SSHConnection) (host username k : String)
    (h : findLiveKey m host username = some k) : jhas m k = true := by
  unfold findLiveKey at h
  obtain ⟨e, hfind⟩ : ∃ e, m.find? (fun e =>
      e.2.host == host && e.2.username == username && e.2.connected) = some e := by
    cases hf : m.find? (fun e =>
        e.2.host == host && e.2.username == username && e.2.connected) with
    | none => rw [hf] at h; exact absurd h (by simp)
    | some e => exact ⟨e, rfl⟩
  rw [hfind] at h
  have h : e.1 = k := by
    simpa using h
  have hmem := List.mem_of_find?_eq_some hfind
  exact List.any_eq_true.mpr ⟨e, hmem, by simp [h]⟩

/-! ## Transfer tasks

The `TransferTask` and `TransferProgress` interfaces of
`src/Components/Layout/resizer.ts`.  The store of record for task status
and byte counters lives in the Rust backend (the TS side creates tasks
through the `create_transfer_task` command and reads state back through
`get_active_transfers`); the mutation of those counters is therefore
modelled from the spec below. -/

/-- The `TransferTask.status` union type. -/
inductive TransferStatus where
  | pending
  | in_progress
  | completed
  | failed
  | cancelled
  deriving Repr, DecidableEq

/-- The `TransferTask.direction` union type. -/
inductive TransferDirection where
  | windows_to_linux
  | linux_to_windows
  deriving Repr, DecidableEq

/-- The `TransferTask` interface of `resizer.ts` (dates as epoch ms). -/
structure TransferTask where
  id : String
  sourcePath : String
  destPath : String
  direction : TransferDirection
  status : TransferStatus
  totalBytes : Nat
  transferredBytes : Nat
  createdAt : Nat
  startedAt : Option Nat
  completedAt : Option Nat
  error : Option String
  deriving Repr, DecidableEq

/-- Per spec §4.3: `completed`, `failed` and `cancelled` are the terminal statuses. -/
def isTerminal (s : TransferStatus) : Bool :=
  match s with
  | .completed => true
  | .failed => true
  | .cancelled => true
  | _ => false

/-- Modelled from the spec: the backend task store's handling of one
progress sample (§4.4 `onProgressSample`) — the sample's byte count
replaces the recorded count only for an `in-progress` task and only when
it is strictly higher; a lower (stale) sample is ignored, and tasks not
`in-progress` (in particular terminal ones) are left untouched. -/
def applyProgressSample (t : TransferTask) (bytes : Nat) : TransferTask :=
  if t.status = .in_progress then
    if t.transferredBytes < bytes then { t with transferredBytes := bytes }
    else t
  else t

/-- Modelled from the spec: the events that can reach one task record, per
the §4.3 state machine and the §6 backend event list. -/
inductive TaskEvent where
  | start (time : Nat)
  | progress (bytes : Nat)
  | completed (time : Nat)
  | failed (err : String)
  | cancelled
  deriving Repr, DecidableEq

/-- Modelled from the spec: the per-task transition function of the §4.3
state machine (`pending → in-progress → {completed | failed | cancelled}`);
a terminal record absorbs every further event. -/
def taskStep (t : TransferTask) (e : TaskEvent) : TransferTask :=
  if isTerminal t.status then t
  else
    match e with
    | .start time =>
        if t.status = .pending then
          { t with status := .in_progress, startedAt := some time }
        else t
    | .progress bytes => applyProgressSample t bytes
    | .completed time =>
        if t.status = .in_progress then
          { t with status := .completed, completedAt := some time }
        else t
    | .failed err => { t with status := .failed, error := some err }
    | .cancelled => { t with status := .cancelled }

/-! ## Transfer scheduler

Admission control runs in the Rust backend; only its concurrency constant
is in the TS sources (`src/Util/constants.ts`). -/

/-- Constant `MAX_CONCURRENT_TRANSFERS` from `src/Util/constants.ts`. -/
def MAX_CONCURRENT_TRANSFERS : Nat := 3

/-- Modelled from the spec: the scheduler's admission state (§4.3) — the
ids currently `in-progress` and the FIFO wait queue, under a configurable
ceiling. -/
structure SchedState where
  limit : Nat
  running : List String
  queue : List String
  deriving Repr, DecidableEq

/-- Modelled from the spec: taking in one request (§4.3) — start it when
below the ceiling, otherwise append it to the FIFO wait queue. -/
def submitTask (st : SchedState) (id : String) : SchedState :=
  if st.running.length < st.limit then { st with running := st.running ++ [id] }
  else { st with queue := st.queue ++ [id] }

/-- Modelled from the spec: an `in-progress` task reaching a terminal
state (§4.3) — remove it from the running set and, in the same step,
promote the head of the wait queue if any. -/
def terminateTask (st : SchedState) (id : String) : SchedState :=
  if st.running.contains id then
    let r := st.running.erase id
    match st.queue with
    | [] => { st with running := r }
    | h :: rest => { st with running := r ++ [h], queue := rest }
  else st

/-- Modelled from the spec: cancelling a still-`pending` request (§4.3)
only removes it from the wait queue. -/
def dequeuePending (st : SchedState) (id : String) : SchedState :=
  { st with queue := st.queue.erase id }

/-- The scheduler states reachable from an empty scheduler through its
operations. -/
inductive SchedReachable : SchedState → Prop where
  | init (limit : Nat) : SchedReachable ⟨limit, [], []⟩
  | submit {st : SchedState} (id : String) :
      SchedReachable st → SchedReachable (submitTask st id)
  | terminate {st : SchedState} (id : String) :
      SchedReachable st → SchedReachable (terminateTask st id)
  | dequeue {st : SchedState} (id : String) :
      SchedReachable st → SchedReachable (dequeuePending st id)

/-- Modelled from the spec: the Rust `cancel_transfer` command behind the
TS `cancelTransfer` wrapper (§4.3) — a `pending` task is dequeued with no
backend transfer-cancel call, an `in-progress` task gets a cancel issued
to the backend; both end `cancelled`, terminal tasks are untouched. -/
structure CancelOutcome where
  task : TransferTask
  queue : List String
  backendCancelIssued : Bool
  deriving Repr, DecidableEq

/-- Modelled from the spec: §4.3 cancellation. -/
def cancelTask (t : TransferTask) (queue : List String) : CancelOutcome :=
  match t.status with
  | .pending => ⟨{ t with status := .cancelled }, queue.erase t.id, false⟩
  | .in_progress => ⟨{ t with status := .cancelled }, queue, true⟩
  | _ => ⟨t, queue, false⟩

/-! ## Progress fan-out (`resizer.ts`, class `TransferQueueManager`)

The manager's own mutable state is the `activeTransfers` map and the
`progressCallbacks` map.  Callback functions are not interpreted; they are
represented by identity tokens, and an invocation is recorded as an
emitted notification. -/

/-- The `TransferProgress` interface of `resizer.ts` (numeric fields as
naturals). -/
structure TransferProgressEv where
  taskId : String
  filename : String
  direction : String
  bytesTransferred : Nat
  totalBytes : Nat
  percentage : Nat
  speedBytesPerSec : Nat
  estimatedRemainingSecs : Nat
  deriving Repr, DecidableEq

/-- The mutable fields of `TransferQueueManager`. -/
structure QMState where
  activeTransfers : JMap TransferTask
  progressCallbacks : JMap Nat
  deriving Repr, DecidableEq

/-- One observer invocation performed by the manager. -/
inductive QMNotification where
  | progressCall (callback : Nat) (p : TransferProgressEv)
  deriving Repr, DecidableEq

/-- Method `TransferQueueManager.handleTransferProgress`: updates the progress
UI and invokes the callback registered for the task id, if any; the
manager's own maps are not modified. -/
def handleTransferProgress (st : QMState) (p : TransferProgressEv) :
    QMState × List QMNotification :=
  match jget st.progressCallbacks p.taskId with
  | some cb => (st, [QMNotification.progressCall cb p])
  | none => (st, [])

/-- Method `TransferQueueManager.handleTransferCompleted`: deletes the task from
`activeTransfers` and deletes its progress callback; no callback is
invoked. -/
def handleTransferCompleted (st : QMState) (taskId : String) :
    QMState × List QMNotification :=
  ({ activeTransfers := jdel st.activeTransfers taskId,
     progressCallbacks := jdel st.progressCallbacks taskId }, [])

/-- Method `TransferQueueManager.handleTransferFailed`: same mutation as the
completed handler (the error is only logged); no callback is invoked. -/
def handleTransferFailed (st : QMState) (taskId : String) (_err : String) :
    QMState × List QMNotification :=
  ({ activeTransfers := jdel st.activeTransfers taskId,
     progressCallbacks := jdel st.progressCallbacks taskId }, [])

/-- Method `TransferQueueManager.onProgress`: registers (last registration wins)
the callback for a task id. -/
def onProgress (st : QMState) (taskId : String) (cb : Nat) : QMState :=
  { st with progressCallbacks := jset st.progressCallbacks taskId cb }

/-- Method `TransferQueueManager.removeProgressCallback`. -/
def removeProgressCallback (st : QMState) (taskId : String) : QMState :=
  { st with progressCallbacks := jdel st.progressCallbacks taskId }

/-! ## Gesture handling (`src/unnamed/part_004`, class `DragDropHandler`) -/

/-- Whether `needle` occurs as a contiguous run inside `hay`
(JavaScript `String.prototype.includes`). -/
def charsContain (needle : List Char) : List Char → Bool
  | [] => needle.isEmpty
  | c :: rest => needle.isPrefixOf (c :: rest) || charsContain needle rest

/-- JavaScript `s.includes(pat)`. -/
def strContains (s pat : String) : Bool := charsContain pat.data s.data

/-- The `DragDropData` interface of the drag-drop handler. -/
structure DragDropData where
  sourcePane : String
  destPane : String
  sourcePath : String
  destPath : String
  filename : String
  isDirectory : Bool
  deriving Repr, DecidableEq

/-- Method `DragDropHandler.extractDragData`: returns `null` when the dragged
item's path or filename is empty (`if (!sourcePath || !filename)`). -/
def extractDragData (sourcePane sourcePath filename : String)
    (isDirectory : Bool) : Option DragDropData :=
  if sourcePath = "" || filename = "" then none
  else some { sourcePane := sourcePane, destPane := "",
              sourcePath := sourcePath, destPath := "",
              filename := filename, isDirectory := isDirectory }

/-- Method `DragDropHandler.getTransferDirection`: classifies the two panes by
substring match on their ids. -/
def getTransferDirection (sourcePane destPane : String) :
    Option TransferDirection :=
  if strContains sourcePane "windows" && strContains destPane "linux" then
    some TransferDirection.windows_to_linux
  else if strContains sourcePane "linux" && strContains destPane "windows" then
    some TransferDirection.linux_to_windows
  else none

/-- Method `DragDropHandler.getDestinationPath`. -/
def getDestinationPath (destPane filename : String) : Option String :=
  if strContains destPane "linux" then some ("/home/user/" ++ filename)
  else if strContains destPane "windows" then
    some ("C:\\Users\\User\\" ++ filename)
  else none

/-- What one drop does: either nothing happens (the handler returns after
a `console.log`/`console.error`, creating no task), or a transfer task
creation is issued to the backend. -/
inductive DropOutcome where
  | ignored
  | transferStarted (sourcePath destPath : String)
      (direction : TransferDirection)
  deriving Repr, DecidableEq

/-- Method `DragDropHandler.handleDrop` followed by `initiateTransfer`: no stored
drag data, a same-pane drop, an unclassifiable pane pair, or an
unresolvable destination path all fall through silently; otherwise
`createTransferTask` is invoked. -/
def handleDrop (dragData : Option DragDropData) (destPane : String) :
    DropOutcome :=
  match dragData with
  | none => DropOutcome.ignored
  | some d =>
      if d.sourcePane == destPane then DropOutcome.ignored
      else
        match getTransferDirection d.sourcePane destPane with
        | none => DropOutcome.ignored
        | some dir =>
            match getDestinationPath destPane d.filename with
            | none => DropOutcome.ignored
            | some dp => DropOutcome.transferStarted d.sourcePath dp dir

/-- One full gesture: the drag start captures the drag data, the drop
handles it. -/
def dropGesture (sourcePane sourcePath filename : String)
    (isDirectory : Bool) (destPane : String) : DropOutcome :=
  handleDrop (extractDragData sourcePane sourcePath filename isDirectory)
    destPane

/-- The effect of a drop outcome on the task store: only a started
transfer adds a task. -/
def tasksAfterDrop (store : List TransferTask) (o : DropOutcome)
    (newTask : TransferTask) : List TransferTask :=
  match o with
  | DropOutcome.ignored => store
  | DropOutcome.transferStarted _ _ _ => store ++ [newTask]

/-- The typed rejections named by the spec's §4.2 validation rules. -/
inductive GestureError where
  | samePaneError
  | invalidRequestError
  deriving Repr, DecidableEq

/-- Written from the spec's words (§4.2), for comparison with the source's
`handleDrop`: reject a same-pane drop with `SamePaneError`, an empty path
or filename with `InvalidRequestError`, and an unclassifiable or
same-classification pane pair with `InvalidRequestError`; otherwise
produce the request. -/
def translateGestureSpec (sourcePane sourcePath filename destPane : String) :
    Except GestureError (String × String × TransferDirection) :=
  if sourcePane = destPane then Except.error GestureError.samePaneError
  else if sourcePath = "" || filename = "" then
    Except.error GestureError.invalidRequestError
  else
    match getTransferDirection sourcePane destPane with
    | none => Except.error GestureError.invalidRequestError
    | some dir =>
        match getDestinationPath destPane filename with
        | none => Except.error GestureError.invalidRequestError
        | some dp => Except.ok (sourcePath, dp, dir)

/-! ## Connection loss cascading into tasks -/

/-- Modelled from the spec: a task "referencing" a Connection (§4.1) — the
reference is the owning connection's identifier, kept next to the task
record. -/
structure ConnTask where
  task : TransferTask
  connId : String
  deriving Repr, DecidableEq

/-- Modelled from the spec: §4.1 — a `pending` or `in-progress` task whose
connection went dead transitions to `failed` with error kind
`ConnectionLost`; other tasks are untouched. -/
def cascadeOne (connId : String) (ct : ConnTask) : ConnTask :=
  if ct.connId == connId
      && (ct.task.status == TransferStatus.pending
          || ct.task.status == TransferStatus.in_progress) then
    { ct with task :=
        { ct.task with status := TransferStatus.failed,
                       error := some "ConnectionLost" } }
  else ct

/-- The session registry together with the task store. -/
structure CoreState where
  ssh : SSHState
  tasks : JMap ConnTask
  deriving Repr, DecidableEq

/-- Handling the backend `connection-lost` notification: the registry part
is the `ssh-disconnected` listener of `ssh_state.ts`; the task cascade is
modelled from the spec (§4.1). -/
def handleConnectionLost (st : CoreState) (connId : String) : CoreState :=
  { ssh := sshDisconnectedEvent st.ssh connId,
    tasks := jmapVal (cascadeOne connId) st.tasks }

/-! ## Concrete fixtures used by witnesses -/

/-- The §8 scenario task: `in-progress`, transferred 500 of 1000. -/
def sampleTaskEx : TransferTask :=
  { id := "T", sourcePath := "C:\\a.txt", destPath := "/home/user/a.txt",
    direction := TransferDirection.windows_to_linux,
    status := TransferStatus.in_progress, totalBytes := 1000,
    transferredBytes := 500, createdAt := 0, startedAt := some 1,
    completedAt := none, error := none }

/-- A completed task. -/
def doneTaskEx : TransferTask :=
  { sampleTaskEx with id := "D", status := TransferStatus.completed,
                      transferredBytes := 1000, completedAt := some 9 }

/-- A still-pending task. -/
def pendingTaskEx : TransferTask :=
  { sampleTaskEx with id := "P", status := TransferStatus.pending,
                      transferredBytes := 0, startedAt := none }

/-- A registered live connection. -/
def connEx : SSHConnection :=
  { id := "c1", host := "h", port := 22, username := "u",
    connected := true, lastActivity := 0 }

/-! ## Claim theorems -/

/-- C1: handling a progress sample never decreases the recorded
transferred byte count; a sample lower than the recorded count leaves the
task unchanged, and for an `in-progress` task a strictly higher sample
replaces the recorded count. -/
theorem progress_sample_monotone (t : TransferTask) (bytes : Nat) :
    t.transferredBytes ≤ (applyProgressSample t bytes).transferredBytes
    ∧ (bytes < t.transferredBytes → applyProgressSample t bytes = t)
    ∧ (t.status = TransferStatus.in_progress → t.transferredBytes < bytes →
        (applyProgressSample t bytes).transferredBytes = bytes) := by
  unfold applyProgressSample
  refine ⟨?_, ?_, ?_⟩
  · split
    · split
      · simp
        omega
      · exact le_refl _
    · exact le_refl _
  · intro hlt
    split
    · split
      · omega
      · rfl
    · rfl
  · intro hst hlt
    rw [if_pos hst, if_pos hlt]

/-- C1 witness: the §8 scenario — a stale sample of 300 leaves the count
at 500, a sample of 700 raises it to 700. -/
theorem progress_sample_monotone_witness :
    applyProgressSample sampleTaskEx 300 = sampleTaskEx
    ∧ (applyProgressSample sampleTaskEx 700).transferredBytes = 700 :=
  ⟨(progress_sample_monotone sampleTaskEx 300).2.1 (by decide),
   (progress_sample_monotone sampleTaskEx 700).2.2 rfl (by decide)⟩

/-- C2: a task whose status is terminal absorbs every further event —
single events and arbitrary event sequences leave the whole record
(status and counters included) unchanged. -/
theorem terminal_task_absorbs (t : TransferTask)
    (h : isTerminal t.status = true) :
    (∀ e : TaskEvent, taskStep t e = t)
    ∧ ∀ es : List TaskEvent, es.foldl taskStep t = t := by
  have hstep : ∀ e : TaskEvent, taskStep t e = t := by
    intro e
    unfold taskStep
    rw [if_pos h]
  refine ⟨hstep, ?_⟩
  intro es
  induction es with
  | nil => rfl
  | cons e rest ih => rw [List.foldl_cons, hstep e, ih]

/-- C2 witness: a completed task ignores a late progress sample and a late
cancellation. -/
theorem terminal_task_absorbs_witness :
    taskStep doneTaskEx (TaskEvent.progress 999) = doneTaskEx
    ∧ [TaskEvent.progress 999, TaskEvent.cancelled].foldl taskStep doneTaskEx
        = doneTaskEx :=
  ⟨(terminal_task_absorbs doneTaskEx (by decide)).1 (TaskEvent.progress 999),
   (terminal_task_absorbs doneTaskEx (by decide)).2
     [TaskEvent.progress 999, TaskEvent.cancelled]⟩

/-- C7: cancelling a `pending` task dequeues it with no backend cancel
call, cancelling an `in-progress` task issues the backend cancel and
leaves the queue alone; both end `cancelled`. -/
theorem cancel_pending_vs_in_progress (t : TransferTask)
    (queue : List String) :
    (t.status = TransferStatus.pending →
      (cancelTask t queue).backendCancelIssued = false
      ∧ (cancelTask t queue).task.status = TransferStatus.cancelled
      ∧ (cancelTask t queue).queue = queue.erase t.id)
    ∧ (t.status = TransferStatus.in_progress →
      (cancelTask t queue).backendCancelIssued = true
      ∧ (cancelTask t queue).task.status = TransferStatus.cancelled
      ∧ (cancelTask t queue).queue = queue) := by
  constructor
  · intro h
    unfold cancelTask
    rw [h]
    exact ⟨rfl, rfl, rfl⟩
  · intro h
    unfold cancelTask
    rw [h]
    exact ⟨rfl, rfl, rfl⟩

/-- C7 witness: a concrete pending task is dequeued without a backend
call; a concrete in-progress task gets the backend cancel. -/
theorem cancel_pending_vs_in_progress_witness :
    (cancelTask pendingTaskEx ["P", "Q"]).backendCancelIssued = false
    ∧ (cancelTask pendingTaskEx ["P", "Q"]).task.status
        = TransferStatus.cancelled
    ∧ (cancelTask pendingTaskEx ["P", "Q"]).queue = ["P", "Q"].erase "P"
    ∧ (cancelTask sampleTaskEx []).backendCancelIssued = true
    ∧ (cancelTask sampleTaskEx []).task.status = TransferStatus.cancelled :=
  ⟨((cancel_pending_vs_in_progress pendingTaskEx ["P", "Q"]).1 rfl).1,
   ((cancel_pending_vs_in_progress pendingTaskEx ["P", "Q"]).1 rfl).2.1,
   ((cancel_pending_vs_in_progress pendingTaskEx ["P", "Q"]).1 rfl).2.2,
   ((cancel_pending_vs_in_progress sampleTaskEx []).2 rfl).1,
   ((cancel_pending_vs_in_progress sampleTaskEx []).2 rfl).2.1⟩

/-- C9: `disconnect` never surfaces an error — the call succeeds (also
for an identifier absent from the registry) and afterwards the identifier
is absent from the registry. -/
theorem disconnect_idempotent (st : SSHState) (connectionId : String) :
    disconnectRun st connectionId
      = Except.ok (removeConnection st connectionId)
    ∧ jget (removeConnection st connectionId).connections connectionId
        = none :=
  ⟨rfl, jget_jdel_self st.connections connectionId⟩

/-- The manager state used by the C8 counterexample: one active task
`t1` with a registered observer (callback token 0). -/
def qmEx : QMState :=
  { activeTransfers := [("t1", { sampleTaskEx with id := "t1" })],
    progressCallbacks := [("t1", 0)] }

/-- C8 counterexample: `t1` has a registered observer, yet the completed
handler performs no observer invocation at all — not the exactly-one
final notification the claim states. -/
theorem terminal_no_notification_cex :
    jget qmEx.progressCallbacks "t1" = some 0
    ∧ (handleTransferCompleted qmEx "t1").2 = []
    ∧ ¬ ((handleTransferCompleted qmEx "t1").2.length = 1) := by
  refine ⟨by decide, rfl, by decide⟩

/-- C8 (amended): a terminal event removes the task from the active map
and unregisters its observer, and the observer is not notified. -/
theorem terminal_event_cleanup (st : QMState) (taskId err : String) :
    jget (handleTransferCompleted st taskId).1.activeTransfers taskId = none
    ∧ jget (handleTransferCompleted st taskId).1.progressCallbacks taskId
        = none
    ∧ (handleTransferCompleted st taskId).2 = []
    ∧ jget (handleTransferFailed st taskId err).1.activeTransfers taskId
        = none
    ∧ jget (handleTransferFailed st taskId err).1.progressCallbacks taskId
        = none
    ∧ (handleTransferFailed st taskId err).2 = [] :=
  ⟨jget_jdel_self _ _, jget_jdel_self _ _, rfl,
   jget_jdel_self _ _, jget_jdel_self _ _, rfl⟩

/-- C4: when a live connection with the requested host and username is
already registered, `connect` returns that existing identifier and the
registry's record count is unchanged. -/
theorem connect_idempotent (st : SSHState) (host : String) (port : Nat)
    (username freshId : String) (now : Nat) (k : String)
    (h : findLiveKey st.connections host username = some k) :
    (connectRun st host port username freshId now).2 = k
    ∧ jsize (connectRun st host port username freshId now).1.connections
        = jsize st.connections := by
  unfold connectRun
  rw [h]
  exact ⟨rfl, jsize_jset_of_jhas _ _ _ (findLiveKey_jhas _ _ _ _ h)⟩

/-- C4 witness: reconnecting to `h`/`u` while `c1` is live returns `c1`
and keeps the registry at one record. -/
theorem connect_idempotent_witness :
    (connectRun ⟨[("c1", connEx)], some "c1"⟩ "h" 22 "u" "fresh" 5).2 = "c1"
    ∧ jsize (connectRun ⟨[("c1", connEx)], some "c1"⟩ "h" 22 "u" "fresh"
        5).1.connections
      = jsize (⟨[("c1", connEx)], some "c1"⟩ : SSHState).connections :=
  connect_idempotent ⟨[("c1", connEx)], some "c1"⟩ "h" 22 "u" "fresh" 5 "c1"
    (by decide)

/-- C5 counterexample: a same-pane drop and an empty-path drop produce the
very same silent outcome (`ignored`, a `console.log` only); the handler
surfaces no typed rejection, while the claim demands distinct
`SamePaneError` / `InvalidRequestError` rejections for these two inputs
(the spec-worded translator below does distinguish them). -/
theorem drop_rejection_untyped_cex :
    dropGesture "windows-tree-pane" "C:\\a.txt" "a.txt" false
        "windows-tree-pane" = DropOutcome.ignored
    ∧ dropGesture "windows-tree-pane" "" "" false "linux-tree-pane"
        = DropOutcome.ignored
    ∧ dropGesture "windows-tree-pane" "C:\\a.txt" "a.txt" false
        "windows-tree-pane"
      = dropGesture "windows-tree-pane" "" "" false "linux-tree-pane"
    ∧ translateGestureSpec "windows-tree-pane" "C:\\a.txt" "a.txt"
        "windows-tree-pane" = Except.error GestureError.samePaneError
    ∧ translateGestureSpec "windows-tree-pane" "" "" "linux-tree-pane"
        = Except.error GestureError.invalidRequestError := by
  refine ⟨by decide, by decide, by decide, rfl, rfl⟩

/-- C5 (amended): a same-pane drop, an empty source path or an empty
filename makes the gesture fall through silently — the outcome is
`ignored` and the task store is unchanged. -/
theorem same_pane_or_empty_drop_silent (sourcePane sourcePath filename :
    String) (isDirectory : Bool) (destPane : String)
    (store : List TransferTask) (nt : TransferTask)
    (h : sourcePane = destPane ∨ sourcePath = "" ∨ filename = "") :
    dropGesture sourcePane sourcePath filename isDirectory destPane
      = DropOutcome.ignored
    ∧ tasksAfterDrop store
        (dropGesture sourcePane sourcePath filename isDirectory destPane) nt
      = store := by
  have h1 : dropGesture sourcePane sourcePath filename isDirectory destPane
      = DropOutcome.ignored := by
    unfold dropGesture extractDragData
    rcases h with h | h | h
    · split
      · rfl
      · unfold handleDrop
        subst h
        simp
    · rw [if_pos (by simp [h])]
      rfl
    · rw [if_pos (by simp [h])]
      rfl
  exact ⟨h1, by rw [h1]; rfl⟩

/-- C5 witness: the amended statement at the same-pane input and at the
empty-path input. -/
theorem same_pane_or_empty_drop_silent_witness :
    (dropGesture "windows-tree-pane" "C:\\a.txt" "a.txt" false
        "windows-tree-pane" = DropOutcome.ignored
      ∧ tasksAfterDrop [doneTaskEx]
          (dropGesture "windows-tree-pane" "C:\\a.txt" "a.txt" false
            "windows-tree-pane") sampleTaskEx
        = [doneTaskEx])
    ∧ dropGesture "windows-tree-pane" "" "" false "linux-tree-pane"
        = DropOutcome.ignored :=
  ⟨same_pane_or_empty_drop_silent "windows-tree-pane" "C:\\a.txt" "a.txt"
      false "windows-tree-pane" [doneTaskEx] sampleTaskEx (Or.inl rfl),
   (same_pane_or_empty_drop_silent "windows-tree-pane" "" "" false
      "linux-tree-pane" [] sampleTaskEx (Or.inr (Or.inl rfl))).1⟩

/-- C6: after a `connection-lost` notification for `connId`, that
connection is no longer live, the current pointer is cleared when it
pointed at it, and every stored task referencing it that was `pending` or
`in-progress` is now `failed` with error kind `ConnectionLost`. -/
theorem connection_lost_cascade (st : CoreState) (connId : String) :
    isLive (handleConnectionLost st connId).ssh connId = false
    ∧ (st.ssh.currentConnection = some connId →
        (handleConnectionLost st connId).ssh.currentConnection = none)
    ∧ ∀ (k : String) (ct : ConnTask), jget st.tasks k = some ct →
        ct.connId = connId →
        (ct.task.status = TransferStatus.pending
          ∨ ct.task.status = TransferStatus.in_progress) →
        jget (handleConnectionLost st connId).tasks k
          = some { ct with task :=
              { ct.task with status := TransferStatus.failed,
                             error := some "ConnectionLost" } } := by
  refine ⟨?_, ?_, ?_⟩
  · unfold handleConnectionLost sshDisconnectedEvent removeConnection isLive
    rw [jget_jdel_self]
  · intro h
    unfold handleConnectionLost sshDisconnectedEvent removeConnection
    exact if_pos h
  · intro k ct hget hconn hstatus
    unfold handleConnectionLost
    rw [jget_jmapVal, hget]
    rcases hstatus with h | h <;> simp [cascadeOne, hconn, h]

/-- The core state used by the C6 witness: live current connection `X`
owning the in-progress task `T`. -/
def coreEx : CoreState :=
  { ssh := ⟨[("X", { connEx with id := "X" })], some "X"⟩,
    tasks := [("T", ⟨{ sampleTaskEx with id := "T" }, "X"⟩)] }

/-- Task `T` after the cascade: `failed` with `ConnectionLost`. -/
def failedTaskT : TransferTask :=
  { sampleTaskEx with id := "T", status := TransferStatus.failed,
                      error := some "ConnectionLost" }

/-- C6 witness: the §8 scenario — live current connection `X` owns the
in-progress task `T`; after `connection-lost(X)`, `X` is dead, the
current pointer is cleared and `T` is `failed` with `ConnectionLost`. -/
theorem connection_lost_cascade_witness :
    isLive (handleConnectionLost coreEx "X").ssh "X" = false
    ∧ (handleConnectionLost coreEx "X").ssh.currentConnection = none
    ∧ jget (handleConnectionLost coreEx "X").tasks "T"
        = some ⟨failedTaskT, "X"⟩ :=
  ⟨(connection_lost_cascade coreEx "X").1,
   (connection_lost_cascade coreEx "X").2.1 rfl,
   by
     have hT := (connection_lost_cascade coreEx "X").2.2 "T"
       ⟨{ sampleTaskEx with id := "T" }, "X"⟩ rfl rfl (Or.inr rfl)
     simpa using hT⟩

/-- The registry integrity invariant: the current pointer, when set,
names a registered connection. -/
def SSHInv (st : SSHState) : Prop :=
  ∀ id, st.currentConnection = some id → jhas st.connections id = true

/-- C10: every registry operation keeps the current pointer pointing at a
registered record (or null): `connect` repoints it at the record it just
stored, `setCurrentConnection` is a no-op for an unregistered id, removal
(explicit disconnect or the `ssh-disconnected` event, which performs the
same mutation) clears a dangling pointer, and `getCurrentConnection`
returns null or a record stored in the registry. -/
theorem current_pointer_integrity :
    (∀ (st : SSHState) (cid host : String) (port : Nat) (username : String)
        (now : Nat), SSHInv (connectApply st cid host port username now).1)
    ∧ (∀ (st : SSHState) (cid : String), SSHInv st →
        SSHInv (removeConnection st cid))
    ∧ (∀ (st : SSHState) (cid : String), SSHInv st →
        SSHInv (setCurrentConnection st cid))
    ∧ (∀ (st : SSHState) (cid : String), jhas st.connections cid = false →
        setCurrentConnection st cid = st)
    ∧ (∀ (st : SSHState) (cid : String),
        sshDisconnectedEvent st cid = removeConnection st cid)
    ∧ (∀ st : SSHState, getCurrentConnection st = none
        ∨ ∃ id c, st.currentConnection = some id
            ∧ jget st.connections id = some c
            ∧ getCurrentConnection st = some c) := by
  refine ⟨?_, ?_, ?_, ?_, fun _ _ => rfl, ?_⟩
  · intro st cid host port username now id h
    unfold connectApply at h ⊢
    have h2 : some cid = some id := h
    injection h2 with h3
    subst h3
    exact jhas_jset_self _ _ _
  · intro st cid hinv id h
    unfold removeConnection at h ⊢
    by_cases hc : st.currentConnection = some cid
    · rw [if_pos hc] at h
      exact absurd h (by simp)
    · rw [if_neg hc] at h
      have hne : id ≠ cid := by
        intro he
        subst he
        exact hc h
      rw [jhas_jdel_ne _ _ _ hne]
      exact hinv id h
  · intro st cid hinv id h
    unfold setCurrentConnection at h ⊢
    by_cases hh : jhas st.connections cid = true
    · simp only [hh, if_true] at h ⊢
      have h2 : some cid = some id := h
      injection h2 with h3
      subst h3
      exact hh
    · simp only [hh, Bool.false_eq_true, if_false] at h ⊢
      exact hinv id h
  · intro st cid h
    unfold setCurrentConnection
    simp [h]
  · intro st
    cases hc : st.currentConnection with
    | none =>
        refine Or.inl ?_
        unfold getCurrentConnection
        rw [hc]
    | some id =>
        cases hg : jget st.connections id with
        | none =>
            refine Or.inl ?_
            unfold getCurrentConnection
            rw [hc]
            exact hg
        | some c =>
            refine Or.inr ⟨id, c, rfl, hg, ?_⟩
            unfold getCurrentConnection
            rw [hc]
            exact hg

/-- C10 witness: repointing at the unregistered id `zz` is a no-op, and
removing the current connection `c1` restores the invariant. -/
theorem current_pointer_integrity_witness :
    setCurrentConnection ⟨[("c1", connEx)], some "c1"⟩ "zz"
      = ⟨[("c1", connEx)], some "c1"⟩
    ∧ SSHInv (removeConnection ⟨[("c1", connEx)], some "c1"⟩ "c1") :=
  ⟨current_pointer_integrity.2.2.2.1 _ "zz" (by decide),
   current_pointer_integrity.2.1 _ "c1" (fun id h => by
     have h2 : some "c1" = some id := h
     injection h2 with h3
     subst h3
     decide)⟩

theorem sched_running_le_limit {st : SchedState} (h : SchedReachable st) :
    st.running.length ≤ st.limit := by
  induction h with
  | init limit => simp
  | submit id _ ih =>
      rename_i st' _
      unfold submitTask
      split
      · rename_i hlt
        simpa using hlt
      · simpa using ih
  | terminate id _ ih =>
      rename_i st' _
      unfold terminateTask
      split
      · rename_i hc
        have hm : id ∈ st'.running := by simpa using hc
        have hlen := List.length_erase_of_mem hm
        have hpos : 0 < st'.running.length := List.length_pos_of_mem hm
        cases hq : st'.queue with
        | nil => simp only [hq]; simp [hlen]; omega
        | cons hd rest => simp only [hq]; simp [hlen]; omega
      · exact ih
  | dequeue id _ ih => simpa [dequeuePending] using ih

/-- C3: the default ceiling constant is 3; in every reachable scheduler
state at most `limit` tasks are running; and terminating a running task
while the wait queue is non-empty promotes the queue head (FIFO) in the
same step. -/
theorem scheduler_ceiling_and_fifo :
    MAX_CONCURRENT_TRANSFERS = 3
    ∧ (∀ st : SchedState, SchedReachable st → st.running.length ≤ st.limit)
    ∧ (∀ (st : SchedState) (id hd : String) (rest : List String),
        st.queue = hd :: rest → st.running.contains id = true →
        (terminateTask st id).running = st.running.erase id ++ [hd]
        ∧ (terminateTask st id).queue = rest) := by
  refine ⟨rfl, fun st h => sched_running_le_limit h, ?_⟩
  intro st id hd rest hq hc
  have hm : id ∈ st.running := by simpa using hc
  unfold terminateTask
  rw [hq]
  simp [hc, hm]

/-- C3 witness: ceiling 1, submissions A then B reach the state where A
runs and B waits; A's termination promotes B in the same step. -/
theorem scheduler_ceiling_and_fifo_witness :
    (⟨1, ["A"], ["B"]⟩ : SchedState).running.length ≤ 1
    ∧ (terminateTask ⟨1, ["A"], ["B"]⟩ "A").running
        = ["A"].erase "A" ++ ["B"]
    ∧ (terminateTask ⟨1, ["A"], ["B"]⟩ "A").queue = [] := by
  have hr : SchedReachable (⟨1, ["A"], ["B"]⟩ : SchedState) :=
    SchedReachable.submit "B" (SchedReachable.submit "A"
      (SchedReachable.init 1))
  refine ⟨scheduler_ceiling_and_fifo.2.1 _ hr, ?_, ?_⟩
  · exact (scheduler_ceiling_and_fifo.2.2 ⟨1, ["A"], ["B"]⟩ "A" "B" [] rfl
      (by decide)).1
  · exact (scheduler_ceiling_and_fifo.2.2 ⟨1, ["A"], ["B"]⟩ "A" "B" [] rfl
      (by decide)).2

end Circle9
